import Mathlib

/-!
Verification of the table-driven coefficient resolution engine of the
DPL (duct pressure loss) calculator.

The development shallowly embeds the parts of the Python source that the
specification's claims are about:

* the directional value-matching pattern
  `max([v for v in vals if v <= t], default=min(vals))` (and its `ceil` /
  `nearest` variants) used by `A12A1_outputs.py`, `A13C_outputs.py`, …;
* the pandas `sort_values` / `filter` / `iloc` lookup pattern used by
  `A9B2_outputs.py`, `A10B_outputs.py`, `A10F_outputs.py`;
* the per-fitting pipelines `A12A1`, `A13C`, `A9B2`, `A10F`, `A10B` and the
  lookup steps of `A7A`;
* the IDW interpolators of `interpolation.py` and `interpolation_manager.py`.

Numeric values are embedded as rationals (Python floats are finite binary
rationals; every comparison and selection in the source is exact), except for
the interpolation module, whose Euclidean distances require `Real.sqrt` and
whose weights use real powers.  `math.pi` is embedded as the exact value of
the IEEE-754 double `math.pi`.  Python exceptions are modelled explicitly:
an exception caught by a pipeline's `try/except` becomes an in-band error
result, an uncaught exception becomes `none`.
-/

/-- The exact rational value of the IEEE-754 double `math.pi`
(3.141592653589793115997963…), i.e. `884279719003555 / 2^48`. -/
def mathPi : ℚ := 884279719003555 / 281474976710656

/-- Python's `max(l)`: `none` on the empty list (Python raises `ValueError`),
otherwise the maximum. -/
def pyMax : List ℚ → Option ℚ
  | [] => none
  | x :: xs => some (xs.foldl max x)

/-- Python's `min(l)`: `none` on the empty list, otherwise the minimum. -/
def pyMin : List ℚ → Option ℚ
  | [] => none
  | x :: xs => some (xs.foldl min x)

/-- Helper for `uniqueVals`: keeps the first occurrence of each value,
skipping the ones already seen. -/
def uniqueAux : List ℚ → List ℚ → List ℚ
  | [], _ => []
  | x :: xs, seen => if x ∈ seen then uniqueAux xs seen else x :: uniqueAux xs (x :: seen)

/-- pandas `Series.unique()`: the distinct values of a column, in order of
first occurrence. -/
def uniqueVals (l : List ℚ) : List ℚ := uniqueAux l []

/-- Floor policy on a value list, translated from the recurring source pattern
`max([val for val in vals if val <= t], default=min(vals))`
(`A12A1_outputs.py` line 62, `A13C_outputs.py` lines 64-67, …):
the largest tabulated value `≤ t`, falling back to the global minimum;
`none` on an empty list (Python raises). -/
def floorMatch (vals : List ℚ) (t : ℚ) : Option ℚ :=
  match pyMax (vals.filter (fun v => decide (v ≤ t))) with
  | some v => some v
  | none => pyMin vals

/-- Ceil policy, translated from
`min([val for val in vals if val >= t], default=max(vals))`
(`A12A1_outputs.py` line 64, `A13C_outputs.py` lines 55-58):
the smallest tabulated value `≥ t`, falling back to the global maximum. -/
def ceilMatch (vals : List ℚ) (t : ℚ) : Option ℚ :=
  match pyMin (vals.filter (fun v => decide (t ≤ v))) with
  | some v => some v
  | none => pyMax vals

/-- Nearest policy, translated from
`min(vals, key=lambda x: abs(x - t))` (`A13C_outputs.py` line 70):
the first value minimizing `|v - t|`. -/
def nearestMatch : List ℚ → ℚ → Option ℚ
  | [], _ => none
  | x :: xs, t => some (xs.foldl (fun b v => if |v - t| < |b - t| then v else b) x)

/-- A directional rounding policy (spec §4.2). -/
inductive Policy
  | floor
  | ceil
  | nearest
deriving DecidableEq

/-- Value selection for one field under a policy. -/
def policyMatch : Policy → List ℚ → ℚ → Option ℚ
  | .floor, vals, t => floorMatch vals t
  | .ceil, vals, t => ceilMatch vals t
  | .nearest, vals, t => nearestMatch vals t

/-- One-field directional lookup over a (field value, coefficient) table:
select a tabulated value under the policy, then take the coefficient of the
first row carrying it.  This is the composition the per-fitting modules
re-implement inline (`A12A1_outputs.py` lines 58-70, `A13C_outputs.py`
lines 53-76). -/
def resolveDir (rows : List (ℚ × ℚ)) (t : ℚ) (p : Policy) : Option ℚ :=
  (policyMatch p (uniqueVals (rows.map (·.1))) t).bind
    (fun v => ((rows.filter (fun r => decide (r.1 = v))).head?).map (·.2))

/-- pandas `idxmin` over `l.map f`: the first element minimizing `f`
(`A10F_outputs.py` lines 89-90). -/
def argminKey {α : Type} (f : α → ℚ) : List α → Option α
  | [] => none
  | x :: xs => some (xs.foldl (fun b v => if f v < f b then v else b) x)

/-- The sorted floor-lookup pattern of `A9B2_outputs.py` lines 49-54 and 71-76
and `A10B_outputs.py` lines 74-80:
`sort_values(by=key)`, keep rows with `key ≤ t`, take `iloc[-1]`,
falling back to `iloc[0]` of the sorted table when no row qualifies.
`none` only on an empty table (Python raises `IndexError`). -/
def sortFloorLookup {α : Type} (key : α → ℚ) (l : List α) (t : ℚ) : Option α :=
  let s := List.insertionSort (fun a b => key a ≤ key b) l
  let valid := s.filter (fun r => decide (key r ≤ t))
  if valid.isEmpty then s.head? else valid.getLast?

/-- The sorted ceil-lookup pattern of `A10B_outputs.py` lines 66-72 and 92-98:
`sort_values(by=key)`, keep rows with `key ≥ t`, take `iloc[0]`,
falling back to `iloc[-1]` of the sorted table. -/
def sortCeilLookup {α : Type} (key : α → ℚ) (l : List α) (t : ℚ) : Option α :=
  let s := List.insertionSort (fun a b => key a ≤ key b) l
  let valid := s.filter (fun r => decide (t ≤ key r))
  if valid.isEmpty then s.getLast? else valid.head?

/-- The unsorted floor-lookup pattern of `A10F_outputs.py` lines 69-70 and
96-98: rows are kept in table order, `iloc[-1]` of the rows with `key ≤ t`,
falling back to `iloc[0]` of the table. -/
def rawFloorLookup {α : Type} (key : α → ℚ) (l : List α) (t : ℚ) : Option α :=
  let valid := l.filter (fun r => decide (key r ≤ t))
  if valid.isEmpty then l.head? else valid.getLast?

/-- The unsorted ceil-lookup pattern of `A10F_outputs.py` lines 73-74 and
93-94: `iloc[0]` of the rows with `key ≥ t`, falling back to `iloc[-1]`. -/
def rawCeilLookup {α : Type} (key : α → ℚ) (l : List α) (t : ℚ) : Option α :=
  let valid := l.filter (fun r => decide (t ≤ key r))
  if valid.isEmpty then l.getLast? else valid.head?

/-- Python truthiness of an optional numeric entry, as tested by
`all([entry_1, …])` in `A9B2_outputs.py` line 27 and `A10F_outputs.py`
line 27: an entry is falsy iff it is absent (`None`) or equal to `0`. -/
def truthy : Option ℚ → Bool
  | none => false
  | some v => decide (v ≠ 0)

/-- Python's `str.lower()` (pandas `.str.lower()`): lower-case every
character. -/
def pyLower (s : String) : String := ⟨s.data.map Char.toLower⟩

/-- Python's `str.strip()`: drop leading and trailing whitespace. -/
def pyStrip (s : String) : String :=
  ⟨((s.data.dropWhile Char.isWhitespace).reverse.dropWhile Char.isWhitespace).reverse⟩

/-! ## Result shapes (spec §6) -/

/-- The four-output result dictionary of the "standard" pipelines
(`A12A1`, `A13C`, `A9B2`): velocity, velocity pressure, loss coefficient,
pressure loss, plus an optional `"Error"` entry.  `none` marks an absent
numeric output. -/
structure StdResult where
  velocity : Option ℚ
  velocityPressure : Option ℚ
  lossCoefficient : Option ℚ
  pressureLoss : Option ℚ
  error : Option String
deriving DecidableEq

/-- The all-absent result returned on missing inputs
(`A12A1_outputs.py` lines 33-39, `A13C_outputs.py` lines 31-37,
`A9B2_outputs.py` lines 27-28). -/
def stdAllNone : StdResult := ⟨none, none, none, none, none⟩

/-- A result carrying only an `"Error"` entry, or the all-absent-plus-error
result of a pipeline's `except` clause; either way every numeric output is
absent. -/
def stdError (s : String) : StdResult := ⟨none, none, none, none, some s⟩

/-- The ten-output result dictionary of the "branch_main" pipelines
(`A10F`, `A10B`). -/
structure BMResult where
  branchVelocity : Option ℚ
  branchVelocityPressure : Option ℚ
  branchLossCoefficient : Option ℚ
  branchPressureLoss : Option ℚ
  sourceVelocity : Option ℚ
  convergedVelocity : Option ℚ
  sourceVelocityPressure : Option ℚ
  convergedVelocityPressure : Option ℚ
  mainLossCoefficient : Option ℚ
  mainPressureLoss : Option ℚ
  error : Option String
deriving DecidableEq

/-- A branch/main result carrying only an `"Error"` entry. -/
def bmError (s : String) : BMResult :=
  ⟨none, none, none, none, none, none, none, none, none, none, some s⟩

/-! ## Embedding of `duct_functions/A12A1_outputs.py` -/

/-- A row of the `A12A1` case table after
`df[["t/D", "L/D", "C"]].dropna()`. -/
structure A12A1Row where
  tD : ℚ
  lD : ℚ
  c : ℚ
deriving DecidableEq

/-- A row of a (free area ratio `n`, coefficient `C`) auxiliary table
(`A14A1` screen corrections) after `df[["n, free area ratio", "C"]].dropna()`. -/
structure NCRow where
  n : ℚ
  c : ℚ
deriving DecidableEq

/-- A row of the `A14B1` perforated-plate table after
`df[["n, free area ratio", "t/D", "C"]].dropna()`. -/
structure PlateRow where
  n : ℚ
  tD : ℚ
  c : ℚ
deriving DecidableEq

/-- The screen correction of `A12A1_outputs.py` lines 77-89:
`max([val for val in n_vals if val <= n], default=min(n_vals))`, then the
first row carrying the matched free-area ratio.  `Except.error` models an
exception caught by the enclosing `try/except` (here: `min()` of an empty
sequence). -/
def A12A1_C1_screen (nv : ℚ) (dfScreen : List NCRow) : Except String ℚ :=
  match floorMatch (uniqueVals (dfScreen.map (·.n))) nv with
  | some nm =>
    match (dfScreen.filter (fun r => decide (r.n = nm))).head? with
    | some r => .ok r.c
    | none => .error "exception"
  | none => .error "exception"

/-- Second stage of the perforated-plate correction
(`A12A1_outputs.py` lines 109-113): within the rows at the largest matching
`n`, take the largest `t/D` and its coefficient. -/
def A12A1_C1_plateSub (nm : ℚ) (pm : List PlateRow) : Except String ℚ :=
  match pyMax (uniqueVals ((pm.filter (fun r => decide (r.n = nm))).map (·.tD))) with
  | some tm =>
    match ((pm.filter (fun r => decide (r.n = nm))).filter
        (fun r => decide (r.tD = tm))).head? with
    | some r => .ok r.c
    | none => .error "exception"
  | none => .error "exception"

/-- The perforated-plate correction of `A12A1_outputs.py` lines 91-113. -/
def A12A1_C1_plate (nv ptv hdv : ℚ) (dfPlate : List PlateRow) : Except String ℚ :=
  if hdv = 0 then .error "exception"   -- `plate_thickness / hole_diameter` raises
  else
    let pm := dfPlate.filter (fun r => decide (r.n ≤ nv) && decide (r.tD ≤ ptv / hdv))
    if pm.isEmpty then .error "No matching plate correction factor found in A14B1."
    else
      match pyMax (uniqueVals (pm.map (·.n))) with
      | some nm => A12A1_C1_plateSub nm pm
      | none => .error "exception"

/-- Screen dispatch: `obstruction == "screen" and n is not None`
(`A12A1_outputs.py` line 77) — with `n` absent, `C1` stays `0.0`. -/
def A12A1_C1_screenArg : Option ℚ → List NCRow → Except String ℚ
  | some nv, dfScreen => A12A1_C1_screen nv dfScreen
  | none, _ => .ok 0

/-- Plate dispatch: `obstruction == "perforated plate" and None not in (…)`
(`A12A1_outputs.py` line 91) — with any argument absent, `C1` stays `0.0`. -/
def A12A1_C1_plateArg : Option ℚ → Option ℚ → Option ℚ → List PlateRow → Except String ℚ
  | some nv, some ptv, some hdv, dfPlate => A12A1_C1_plate nv ptv hdv dfPlate
  | _, _, _, _ => .ok 0

/-- The obstruction correction factor `C1` of `A12A1_outputs.py`
lines 75-113: `0.0` unless a screen (with `n` given) or a perforated plate
(with `n`, thickness and hole diameter all given) is selected. -/
def A12A1_C1 (obstruction : Option String) (n pt hd : Option ℚ)
    (dfScreen : List NCRow) (dfPlate : List PlateRow) : Except String ℚ :=
  if obstruction = some "screen" then A12A1_C1_screenArg n dfScreen
  else if obstruction = some "perforated plate" then A12A1_C1_plateArg n pt hd dfPlate
  else .ok 0

/-- The total loss coefficient of `A12A1_outputs.py` lines 118-125: with an
obstruction, the thin-plate limit `t/D ≤ 0.05` replaces the base term
(`1 + C1`), otherwise the correction is additive (`C + C1`); with no
obstruction the base coefficient stands alone. -/
def A12A1_total (obstructed : Bool) (tD C C1 : ℚ) : ℚ :=
  if obstructed then (if tD ≤ 1/20 then 1 + C1 else C + C1) else C

/-- Body of `A12A1_outputs` (the `try` block, lines 41-135), for present
inputs `t`, `L`, `D`, `Q`. -/
def A12A1_body (tv Lv Dv Qv : ℚ) (obstruction : Option String) (n pt hd : Option ℚ)
    (df : List A12A1Row) (dfScreen : List NCRow) (dfPlate : List PlateRow) : StdResult :=
  if Dv = 0 then stdError "exception"   -- `Q / (A / 144.0)` raises ZeroDivisionError
  else
    let A := mathPi * (Dv / 2) ^ 2      -- in²
    let V := Qv / (A / 144)             -- ft/min
    let tD := tv / Dv
    let lD := Lv / Dv
    match floorMatch (uniqueVals (df.map (·.tD))) tD,
          ceilMatch (uniqueVals (df.map (·.lD))) lD with
    | some tm, some lm =>
      match (df.filter (fun r => decide (r.tD = tm) && decide (r.lD = lm))).head? with
      | none => stdError "No matching t/D and L/D pair found in A12A1 data."
      | some row =>
        match A12A1_C1 obstruction n pt hd dfScreen dfPlate with
        | .error s => stdError s
        | .ok C1 =>
          let obstructed :=
            decide (obstruction = some "screen") || decide (obstruction = some "perforated plate")
          let lossCoefficient := A12A1_total obstructed tD row.c C1
          let vp := (V / 4005) ^ 2
          ⟨some V, some vp, some lossCoefficient, some (lossCoefficient * vp), none⟩
    | _, _ => stdError "exception"      -- lookup on an empty table raises

/-- `A12A1_outputs` (`duct_functions/A12A1_outputs.py`): `None`-check of the
four required raw inputs, then the computation body. -/
def A12A1_outputs (t L D Q : Option ℚ) (obstruction : Option String) (n pt hd : Option ℚ)
    (df : List A12A1Row) (dfScreen : List NCRow) (dfPlate : List PlateRow) : StdResult :=
  match t, L, D, Q with
  | some tv, some Lv, some Dv, some Qv =>
    A12A1_body tv Lv Dv Qv obstruction n pt hd df dfScreen dfPlate
  | _, _, _, _ => stdAllNone

/-! ## Embedding of `duct_functions/A13C_outputs.py` -/

/-- A row of the `A13C` case table after `df[["ANGLE", "As/A", "C"]].dropna()`. -/
structure A13CRow where
  angle : ℚ
  ratio : ℚ      -- the "As/A" column
  c : ℚ
deriving DecidableEq

/-- The angle match of `A13C_outputs.py` lines 54-58: smallest tabulated
angle `≥` the input, falling back to the maximum. -/
def A13C_angleMatch (df : List A13CRow) (a : ℚ) : Option ℚ :=
  ceilMatch (uniqueVals (df.map (·.angle))) a

/-- The candidate ratios of `A13C_outputs.py` line 61: the distinct `As/A`
values among the rows surviving the angle match. -/
def A13C_ratioSubset (df : List A13CRow) (am : ℚ) : List ℚ :=
  uniqueVals ((df.filter (fun r => decide (r.angle = am))).map (·.ratio))

/-- The row set of `A13C_outputs.py` line 72:
`df[(df["ANGLE"] == angle_match) & (df["As/A"] == ratio_match)]`. -/
def A13C_matched (df : List A13CRow) (am rm : ℚ) : List A13CRow :=
  df.filter (fun r => decide (r.angle = am) && decide (r.ratio = rm))

/-- Body of `A13C_outputs` (the `try` block, lines 39-106), for present
inputs `H`, `Hs`, `W`, `angle`, `Q`. -/
def A13C_body (Hv Hsv Wv av Qv : ℚ) (obstruction : Option String) (n : Option ℚ)
    (df : List A13CRow) (dfScreen : List NCRow) : StdResult :=
  let A := Hv * Wv
  let As := Hsv * Wv
  let Aratio := if A ≠ 0 then As / A else 1
  if A = 0 then stdError "exception"    -- `V = Q / (A / 144.0)` raises
  else
    let V := Qv / (A / 144)
    let vp := (V / 4005) ^ 2
    match A13C_angleMatch df av with
    | none => stdError "exception"      -- `max()` of an empty table raises
    | some am =>
      let ratioSubset := A13C_ratioSubset df am
      match (if av ≤ 20 then floorMatch ratioSubset Aratio
             else nearestMatch ratioSubset Aratio) with
      | none => stdError "exception"
      | some rm =>
        match (A13C_matched df am rm).head? with
        | none => stdError "No matching data in A13C for given angle and area ratio."
        | some row =>
          -- screen correction (lines 78-97)
          match (match obstruction, n with
                 | some obs, some nv =>
                   if pyLower (pyStrip obs) = "screen" then some nv else none
                 | _, _ => none) with
          | some nv =>
            match floorMatch (uniqueVals (dfScreen.map (·.n))) nv with
            | none => stdError "exception"
            | some nm =>
              match (dfScreen.filter (fun r => decide (r.n = nm))).head? with
              | none => stdError "exception"
              | some r1 =>
                let lossCoefficient :=
                  row.c + r1.c / (if Aratio ≠ 0 then Aratio ^ 2 else 1)
                ⟨some V, some vp, some lossCoefficient, some (lossCoefficient * vp), none⟩
          | none =>
            ⟨some V, some vp, some row.c, some (row.c * vp), none⟩

/-- `A13C_outputs` (`duct_functions/A13C_outputs.py`): `None`-check of the
five required raw inputs (line 31), then the computation body. -/
def A13C_outputs (H Hs W angle Q : Option ℚ) (obstruction : Option String) (n : Option ℚ)
    (df : List A13CRow) (dfScreen : List NCRow) : StdResult :=
  match H, Hs, W, angle, Q with
  | some Hv, some Hsv, some Wv, some av, some Qv =>
    A13C_body Hv Hsv Wv av Qv obstruction n df dfScreen
  | _, _, _, _, _ => stdAllNone

/-! ## Embedding of `duct_functions/A9B2_outputs.py` -/

/-- A row of the `A9B2` projection `df[["L/D", "ANGLE", "C"]].dropna()`. -/
structure A9B2Row where
  ld : ℚ
  angle : ℚ
  c : ℚ
deriving DecidableEq

/-- A row of the `A9B2` projection `df[["A/A1", "C"]].dropna()`. -/
structure AA1Row where
  aa1 : ℚ
  c : ℚ
deriving DecidableEq

/-- The angle-stage candidate rows of `A9B2_outputs.py` line 58: the rows of
the (sorted) `L/D` table whose `L/D` equals the matched value, re-sorted by
`ANGLE`. -/
def A9B2_angleData (ldData : List A9B2Row) (ldv : ℚ) : List A9B2Row :=
  List.insertionSort (fun a b => a.angle ≤ b.angle)
    ((List.insertionSort (fun a b => a.ld ≤ b.ld) ldData).filter
      (fun r => decide (r.ld = ldv)))

/-- The angle match of `A9B2_outputs.py` lines 59-63: below 60° keep the
angles `≤` the input and take `iloc[0]` (falling back to `iloc[0]` of the
group); from 60° keep the angles `≥` the input and take `iloc[-1]`
(falling back to `iloc[-1]`). -/
def A9B2_angleRow (angleData : List A9B2Row) (ang : ℚ) : Option A9B2Row :=
  if ang < 60 then
    let valid := angleData.filter (fun r => decide (r.angle ≤ ang))
    if valid.isEmpty then angleData.head? else valid.head?
  else
    let valid := angleData.filter (fun r => decide (ang ≤ r.angle))
    if valid.isEmpty then angleData.getLast? else valid.getLast?

/-- Body of `A9B2_outputs` (lines 30-92) for present, truthy inputs.
`A9B2_outputs.py` has no `try/except`; an exception propagating out of the
function is modelled as a `stdError` result (the GUI boundary catches it). -/
def A9B2_body (H W H1 W1 L ang Q : ℚ)
    (ldData : List A9B2Row) (aa1Data : List AA1Row) : StdResult :=
  if H + W = 0 ∨ H1 + W1 = 0 ∨ H1 * W1 = 0 then stdError "exception"
  else
    let hydraulicDiameter := 2 * (H * W) / (H + W)
    let area1 := (H1 * W1) / 144
    let velocity := Q / area1
    let ldr := L / hydraulicDiameter
    if hydraulicDiameter = 0 then stdError "exception"
    else
      match sortFloorLookup (fun r => r.ld) ldData ldr with
      | none => stdError "exception"    -- `iloc` on an empty table raises
      | some ldRow =>
        match A9B2_angleRow (A9B2_angleData ldData ldRow.ld) ang with
        | none => stdError "exception"
        | some angleRow =>
          let area := (H * W) / 144
          let areaRatio := area / area1
          match sortFloorLookup (fun r => r.aa1) aa1Data areaRatio with
          | none => stdError "exception"
          | some corrRow =>
            let lossCoefficient := angleRow.c * corrRow.c
            let vp := (velocity / 4005) ^ 2
            ⟨some velocity, some vp, some lossCoefficient, some (lossCoefficient * vp), none⟩

/-- The all-absent result of `A9B2_outputs.py` line 28
(`{f"Output {i+1}": None for i in range(4)}`). -/
def A9B2_missing : StdResult := stdAllNone

/-- `A9B2_outputs` (`duct_functions/A9B2_outputs.py`): the validation
`if not all([entry_1, …, entry_7])` (line 27) treats an entry as missing when
it is `None` **or** `0` (Python truthiness), then the computation body runs
on the unwrapped values. -/
def A9B2_outputs (e1 e2 e3 e4 e5 e6 e7 : Option ℚ)
    (ldData : List A9B2Row) (aa1Data : List AA1Row) : StdResult :=
  match e1, e2, e3, e4, e5, e6, e7 with
  | some H, some W, some H1, some W1, some L, some ang, some Q =>
    if H = 0 ∨ W = 0 ∨ H1 = 0 ∨ W1 = 0 ∨ L = 0 ∨ ang = 0 ∨ Q = 0 then A9B2_missing
    else A9B2_body H W H1 W1 L ang Q ldData aa1Data
  | _, _, _, _, _, _, _ => A9B2_missing

/-! ## Embedding of `duct_functions/A10F_outputs.py` -/

/-- A row of the `A10F` branch table (columns `PATH`, `Vc`, `Qb/Qc`, `C`). -/
structure A10FRow where
  path : String
  vc : ℚ
  qbqc : ℚ
  c : ℚ
deriving DecidableEq

/-- A row of the `A10M` main table
(columns `PATH`, `As/Ac`, `Ab/Ac`, `Qb/Qs`, `C`). -/
structure A10MRow where
  path : String
  asac : ℚ
  abac : ℚ
  qbqs : ℚ
  c : ℚ
deriving DecidableEq

/-- The missing-input result of `A10F_outputs.py` lines 28-30. -/
def A10F_missing : BMResult :=
  bmError "Missing input values. Please enter all required values."

/-- Body of `A10F_outputs` (lines 32-139) for present, truthy inputs;
everything runs inside `try/except`, so an exception becomes an in-band
error result. -/
def A10F_body (H W Qs Qb : ℚ) (dfB : List A10FRow) (dfM : List A10MRow) : BMResult :=
  let areaMain := (H * W) / 144
  let areaBranch := areaMain / 2
  let Qc := Qs + Qb
  if areaMain = 0 ∨ Qc = 0 then bmError "exception"   -- ZeroDivisionError, caught
  else
    let velocitySource := Qs / areaMain
    let velocityConverged := Qc / areaMain
    let velocityBranch := Qb / areaBranch
    let qbQcRatio := Qb / Qc
    let qbQsRatio := Qb / Qs            -- Qs ≠ 0 by truthiness
    if qbQsRatio < 2/5 then
      bmError ("Invalid Input: Qb/Qs must be at least 0.4. " ++
        "Increase branch flow rate (Qb) or decrease source flow rate (Qs).")
    else
      let branchData := dfB.filter (fun r => decide (r.path = "branch"))
      -- `branch_vc_row` (lines 69-70) is computed but never used afterwards
      let _bvcRow := rawFloorLookup (fun r => r.vc) branchData velocityConverged
      match rawCeilLookup (fun r => r.qbqc) branchData qbQcRatio with
      | none => bmError "exception"     -- `iloc` on an empty table raises, caught
      | some bqRow =>
        let branchLossCoefficient := bqRow.c
        let mainData := dfM.filter (fun r => decide (r.path = "main"))
        -- `main_as_ac_row` (lines 89-90) and `main_ab_ac_row` (lines 93-94)
        -- are computed but never used afterwards
        match argminKey (fun r => |r.asac - 1|) mainData,
              rawCeilLookup (fun r => r.abac) mainData (1/2),
              rawFloorLookup (fun r => r.qbqs) mainData qbQsRatio with
        | some _, some _, some mqRow =>
          let mainLossCoefficient := mqRow.c
          let branchVP := (velocityBranch / 4005) ^ 2
          let sourceVP := (velocitySource / 4005) ^ 2
          let convergedVP := (velocityConverged / 4005) ^ 2
          ⟨some velocityBranch, some branchVP, some branchLossCoefficient,
           some (branchLossCoefficient * branchVP),
           some velocitySource, some velocityConverged, some sourceVP, some convergedVP,
           some mainLossCoefficient, some (mainLossCoefficient * sourceVP), none⟩
        | _, _, _ => bmError "exception"

/-- `A10F_outputs` (`duct_functions/A10F_outputs.py`): the validation
`if not all([entry_1, …, entry_4])` (line 27) treats an entry as missing
when it is `None` **or** `0`, returning the error-only result. -/
def A10F_outputs (e1 e2 e3 e4 : Option ℚ)
    (dfB : List A10FRow) (dfM : List A10MRow) : BMResult :=
  match e1, e2, e3, e4 with
  | some H, some W, some Qs, some Qb =>
    if H = 0 ∨ W = 0 ∨ Qs = 0 ∨ Qb = 0 then A10F_missing
    else A10F_body H W Qs Qb dfB dfM
  | _, _, _, _ => A10F_missing

/-! ## Embedding of `duct_functions/A10B_outputs.py` -/

/-- A row of the consolidated `A10B` table
(columns `PATH`, `Qb/Qc`, `Ab/Ac`, `C`). -/
structure A10BRow where
  path : String
  qbqc : ℚ
  abac : ℚ
  c : ℚ
deriving DecidableEq

/-- Body of `A10B_outputs` (lines 38-120).  `A10B_outputs.py` has no
`try/except`: a raised exception (empty branch or main slice, zero diameter)
propagates, modelled as `none`. -/
def A10B_body (Dm Db Qs Qb : ℚ) (df : List A10BRow) : Option BMResult :=
  let branchData := df.filter (fun r => decide (pyLower r.path = "branch"))
  let mainData := df.filter (fun r => decide (pyLower r.path = "main"))
  if branchData.isEmpty ∨ mainData.isEmpty then none   -- `raise ValueError` (line 48)
  else if Dm = 0 ∨ Db = 0 ∨ Qs + Qb = 0 then none      -- ZeroDivisionError, uncaught
  else
    let areaMain := mathPi * (Dm / 2) ^ 2 / 144
    let areaBranch := mathPi * (Db / 2) ^ 2 / 144
    let Qc := Qs + Qb
    let velocityBranch := Qb / areaBranch
    let velocitySource := Qs / areaMain
    let velocityConverged := Qc / areaMain
    let QbQc := Qb / Qc
    let AbAc := areaBranch / areaMain
    match sortCeilLookup (fun r => r.qbqc) branchData QbQc,
          sortFloorLookup (fun r => r.abac) branchData AbAc,
          sortCeilLookup (fun r => r.qbqc) mainData QbQc with
    | some bqRow, some baRow, some mqRow =>
      let branchLossCoefficient := bqRow.c * baRow.c
      let branchVP := (velocityBranch / 4005) ^ 2
      let sourceVP := (velocitySource / 4005) ^ 2
      let convergedVP := (velocityConverged / 4005) ^ 2
      let mainLossCoefficient := mqRow.c
      some ⟨some velocityBranch, some branchVP, some branchLossCoefficient,
            some (branchLossCoefficient * branchVP),
            some velocitySource, some velocityConverged, some sourceVP, some convergedVP,
            some mainLossCoefficient, some (mainLossCoefficient * sourceVP), none⟩
    | _, _, _ => none

/-- `A10B_outputs` (`duct_functions/A10B_outputs.py`): an explicit
`is None` check (line 24, "so 0 is allowed"), then the computation body. -/
def A10B_outputs (e1 e2 e3 e4 : Option ℚ) (df : List A10BRow) : Option BMResult :=
  match e1, e2, e3, e4 with
  | some Dm, some Db, some Qs, some Qb => A10B_body Dm Db Qs Qb df
  | _, _, _, _ =>
    some ⟨none, none, none, none, none, none, none, none, none, none, none⟩

/-! ## Embedding of the lookup steps of `duct_functions/A7A_outputs.py` -/

/-- The angle lookup of `A7A_outputs.py` lines 40-43: sort the
(`ANGLE`, `K`) rows by angle and take `iloc[0]` of the rows with
`ANGLE ≥ entry_3`.  There is **no** fallback and no enclosing `try/except`:
when no tabulated angle is `≥` the target the `iloc[0]` raises `IndexError`,
modelled as `none`. -/
def A7A_angleLookup (dfAngle : List (ℚ × ℚ)) (target : ℚ) : Option (ℚ × ℚ) :=
  ((List.insertionSort (fun a b => a.1 ≤ b.1) dfAngle).filter
    (fun r => decide (target ≤ r.1))).head?

/-- The `R/D` lookup of `A7A_outputs.py` lines 46-49: sort the (`R/D`, `C`)
rows and take `iloc[-1]` of the rows with `R/D ≤ entry_2`.  Again no
fallback: an empty match raises `IndexError`, modelled as `none`. -/
def A7A_rdLookup (dfRd : List (ℚ × ℚ)) (target : ℚ) : Option (ℚ × ℚ) :=
  ((List.insertionSort (fun a b => a.1 ≤ b.1) dfRd).filter
    (fun r => decide (r.1 ≤ target))).getLast?

/-! ## Embedding of `interpolation.py` and `interpolation_manager.py`

Distances are Euclidean (`Real.sqrt`) and weights use a real exponent, so
this module lives over `ℝ` and its definitions are noncomputable. -/

/-- Euclidean distance in argument space between a point's key-vector and the
target (`interpolation.py` lines 45-46). -/
noncomputable def distE (p q : List ℝ) : ℝ :=
  Real.sqrt (((p.zip q).map (fun t => (t.1 - t.2) ^ 2)).sum)

/-- `idw_interpolate_nd` (`interpolation.py`).  `pts` are the
(key-vector, coefficient) pairs of the table rows. Control flow, in source
order: the exact-match branch (lines 49-51) returns the **first**
zero-distance point's coefficient; the "all distances zero" branch
(lines 53-55) can then only fire for an empty table, where `vals.mean()` is
NaN — modelled as `none`; otherwise the `k` nearest points are weighted by
`1 / distance ** power` and the normalized weighted sum is returned. -/
noncomputable def idw_interpolate_nd (pts : List (List ℝ × ℝ)) (target : List ℝ)
    (k : ℕ) (power : ℝ) : Option ℝ :=
  match pts.find? (fun p => decide (distE p.1 target = 0)) with
  | some p => some p.2
  | none =>
    -- `np.all` over an empty array is `True`, so an empty table reaches the
    -- degenerate branch and `vals.mean()` is NaN; for a non-empty table with
    -- no zero distance the branch is unreachable.
    if pts.isEmpty then none
    else
      let sorted := List.insertionSort (fun a b => distE a.1 target ≤ distE b.1 target) pts
      let sel := sorted.take (min k pts.length)
      let dsel := sel.map (fun p => if distE p.1 target = 0 then 1e-12 else distE p.1 target)
      let ws := dsel.map (fun d => 1 / d ^ power)
      let wn := ws.map (fun w => w / ws.sum)
      some ((wn.zip (sel.map (·.2))).map (fun t => t.1 * t.2)).sum

/-- `_idw_weights_1d` (`interpolation_manager.py` lines 15-32): on an exact
hit the weight vector is the **one-hot mask of every coinciding point**
(each weight `1.0`, not renormalized); otherwise inverse-distance weights
normalized to sum 1, with a uniform fallback if the weight sum is zero. -/
noncomputable def idw_weights_1d (xData : List ℝ) (xq power : ℝ) : List ℝ :=
  let dx := xData.map (fun x => |x - xq|)
  if dx.any (fun d => decide (d = 0)) then dx.map (fun d => if d = 0 then 1 else 0)
  else
    let w := dx.map (fun d => 1 / d ^ power)
    if w.sum = 0 then dx.map (fun _ => 1 / (dx.length : ℝ))
    else w.map (fun wi => wi / w.sum)

/-- `_idw_weights_2d` (`interpolation_manager.py` lines 35-59). -/
noncomputable def idw_weights_2d (xData yData : List ℝ) (xq yq power : ℝ) : List ℝ :=
  let dist := (xData.zip yData).map
    (fun t => Real.sqrt ((t.1 - xq) ^ 2 + (t.2 - yq) ^ 2))
  if dist.any (fun d => decide (d = 0)) then dist.map (fun d => if d = 0 then 1 else 0)
  else
    let w := dist.map (fun d => 1 / d ^ power)
    if w.sum = 0 then dist.map (fun _ => 1 / (dist.length : ℝ))
    else w.map (fun wi => wi / w.sum)

/-- `Interpolator1D.__call__` (`interpolation_manager.py` lines 74-76):
`float(np.sum(w * self.c))`. -/
noncomputable def Interpolator1D_call (x c : List ℝ) (power xq : ℝ) : ℝ :=
  (((idw_weights_1d x xq power).zip c).map (fun t => t.1 * t.2)).sum

/-- `Interpolator2D.__call__` (`interpolation_manager.py` lines 99-101). -/
noncomputable def Interpolator2D_call (x y c : List ℝ) (power xq yq : ℝ) : ℝ :=
  (((idw_weights_2d x y xq yq power).zip c).map (fun t => t.1 * t.2)).sum

/-! ## Helper lemmas: Python `max` / `min` / keyed `min` -/

theorem foldl_max_mem (xs : List ℚ) (x : ℚ) : xs.foldl max x ∈ x :: xs := by
  induction xs generalizing x with
  | nil => simp
  | cons y ys ih =>
    rw [List.foldl_cons]
    rcases List.mem_cons.mp (ih (max x y)) with h | h
    · rw [h]
      rcases max_choice x y with hm | hm <;> rw [hm]
      · exact List.mem_cons_self _ _
      · exact List.mem_cons_of_mem _ (List.mem_cons_self _ _)
    · exact List.mem_cons_of_mem _ (List.mem_cons_of_mem _ h)

theorem le_foldl_max (xs : List ℚ) (x : ℚ) : ∀ y ∈ x :: xs, y ≤ xs.foldl max x := by
  induction xs generalizing x with
  | nil => simp
  | cons z zs ih =>
    intro y hy
    rcases List.mem_cons.mp hy with rfl | hy
    · exact le_trans (le_max_left y z) (ih (max y z) _ (List.mem_cons_self _ _))
    · rcases List.mem_cons.mp hy with rfl | hy
      · exact le_trans (le_max_right x y) (ih (max x y) _ (List.mem_cons_self _ _))
      · exact ih (max x z) y (List.mem_cons_of_mem _ hy)

theorem foldl_min_mem (xs : List ℚ) (x : ℚ) : xs.foldl min x ∈ x :: xs := by
  induction xs generalizing x with
  | nil => simp
  | cons y ys ih =>
    rw [List.foldl_cons]
    rcases List.mem_cons.mp (ih (min x y)) with h | h
    · rw [h]
      rcases min_choice x y with hm | hm <;> rw [hm]
      · exact List.mem_cons_self _ _
      · exact List.mem_cons_of_mem _ (List.mem_cons_self _ _)
    · exact List.mem_cons_of_mem _ (List.mem_cons_of_mem _ h)

theorem foldl_min_le (xs : List ℚ) (x : ℚ) : ∀ y ∈ x :: xs, xs.foldl min x ≤ y := by
  induction xs generalizing x with
  | nil => simp
  | cons z zs ih =>
    intro y hy
    rcases List.mem_cons.mp hy with rfl | hy
    · exact le_trans (ih (min y z) _ (List.mem_cons_self _ _)) (min_le_left y z)
    · rcases List.mem_cons.mp hy with rfl | hy
      · exact le_trans (ih (min x y) _ (List.mem_cons_self _ _)) (min_le_right x y)
      · exact ih (min x z) y (List.mem_cons_of_mem _ hy)

theorem pyMax_mem {l : List ℚ} {m : ℚ} (h : pyMax l = some m) : m ∈ l := by
  cases l with
  | nil => simp [pyMax] at h
  | cons x xs =>
    simp only [pyMax, Option.some.injEq] at h
    exact h ▸ foldl_max_mem xs x

theorem pyMax_le {l : List ℚ} {m : ℚ} (h : pyMax l = some m) : ∀ y ∈ l, y ≤ m := by
  cases l with
  | nil => simp [pyMax] at h
  | cons x xs =>
    simp only [pyMax, Option.some.injEq] at h
    exact h ▸ le_foldl_max xs x

theorem pyMax_some {l : List ℚ} (h : l ≠ []) : ∃ m, pyMax l = some m := by
  cases l with
  | nil => exact absurd rfl h
  | cons x xs => exact ⟨xs.foldl max x, rfl⟩

theorem pyMin_mem {l : List ℚ} {m : ℚ} (h : pyMin l = some m) : m ∈ l := by
  cases l with
  | nil => simp [pyMin] at h
  | cons x xs =>
    simp only [pyMin, Option.some.injEq] at h
    exact h ▸ foldl_min_mem xs x

theorem pyMin_le {l : List ℚ} {m : ℚ} (h : pyMin l = some m) : ∀ y ∈ l, m ≤ y := by
  cases l with
  | nil => simp [pyMin] at h
  | cons x xs =>
    simp only [pyMin, Option.some.injEq] at h
    exact h ▸ foldl_min_le xs x

theorem pyMin_some {l : List ℚ} (h : l ≠ []) : ∃ m, pyMin l = some m := by
  cases l with
  | nil => exact absurd rfl h
  | cons x xs => exact ⟨xs.foldl min x, rfl⟩

theorem argminFold_spec {α : Type} (f : α → ℚ) (xs : List α) (x : α) :
    xs.foldl (fun b v => if f v < f b then v else b) x ∈ x :: xs ∧
      ∀ y ∈ x :: xs, f (xs.foldl (fun b v => if f v < f b then v else b) x) ≤ f y := by
  induction xs generalizing x with
  | nil => simpa using fun y hy => le_of_eq (congrArg f hy.symm)
  | cons z zs ih =>
    have ihz := ih (if f z < f x then z else x)
    constructor
    · rcases List.mem_cons.mp ihz.1 with h | h
      · by_cases hc : f z < f x <;> simp [List.foldl_cons, hc] at h ⊢ <;> simp [h]
      · simp [List.foldl_cons, List.mem_cons_of_mem, h]
    · intro y hy
      have hbase : f (zs.foldl (fun b v => if f v < f b then v else b)
          (if f z < f x then z else x)) ≤ f (if f z < f x then z else x) :=
        ihz.2 _ (List.mem_cons_self _ _)
      rcases List.mem_cons.mp hy with rfl | hy
      · refine le_trans (by simpa [List.foldl_cons] using hbase) ?_
        by_cases hc : f z < f y <;> simp [hc, le_of_lt]
      · rcases List.mem_cons.mp hy with rfl | hy
        · refine le_trans (by simpa [List.foldl_cons] using hbase) ?_
          by_cases hc : f y < f x <;> simp [hc, le_of_not_lt]
        · simpa [List.foldl_cons] using ihz.2 y (List.mem_cons_of_mem _ hy)

theorem argminKey_spec {α : Type} (f : α → ℚ) {l : List α} {m : α}
    (h : argminKey f l = some m) : m ∈ l ∧ ∀ y ∈ l, f m ≤ f y := by
  cases l with
  | nil => simp [argminKey] at h
  | cons x xs =>
    simp only [argminKey, Option.some.injEq] at h
    exact h ▸ argminFold_spec f xs x

/-! ## Helper lemmas: `uniqueVals` -/

theorem mem_uniqueAux {a : ℚ} : ∀ {l seen : List ℚ}, a ∈ uniqueAux l seen ↔ a ∈ l ∧ a ∉ seen
  | [], _ => by simp [uniqueAux]
  | x :: xs, seen => by
    by_cases hx : x ∈ seen
    · rw [uniqueAux, if_pos hx, mem_uniqueAux]
      constructor
      · exact fun ⟨h1, h2⟩ => ⟨List.mem_cons_of_mem _ h1, h2⟩
      · rintro ⟨h1, h2⟩
        rcases List.mem_cons.mp h1 with rfl | h1
        · exact absurd hx h2
        · exact ⟨h1, h2⟩
    · rw [uniqueAux, if_neg hx]
      constructor
      · intro h
        rcases List.mem_cons.mp h with rfl | h
        · exact ⟨List.mem_cons_self _ _, hx⟩
        · rcases mem_uniqueAux.mp h with ⟨h1, h2⟩
          exact ⟨List.mem_cons_of_mem _ h1, fun hs => h2 (List.mem_cons_of_mem _ hs)⟩
      · rintro ⟨h1, h2⟩
        rcases List.mem_cons.mp h1 with rfl | h1
        · exact List.mem_cons_self _ _
        · by_cases hax : a = x
          · exact hax ▸ List.mem_cons_self _ _
          · exact List.mem_cons_of_mem _ (mem_uniqueAux.mpr
              ⟨h1, fun hs => (List.mem_cons.mp hs).elim hax h2⟩)

theorem mem_uniqueVals {a : ℚ} {l : List ℚ} : a ∈ uniqueVals l ↔ a ∈ l := by
  rw [uniqueVals, mem_uniqueAux]; simp

theorem uniqueVals_eq_nil {l : List ℚ} : uniqueVals l = [] ↔ l = [] := by
  constructor
  · intro h
    cases l with
    | nil => rfl
    | cons x xs =>
      have : x ∈ uniqueVals (x :: xs) := mem_uniqueVals.mpr (List.mem_cons_self _ _)
      simp [h] at this
  · rintro rfl; rfl

/-! ## Helper lemmas: directional matches -/

theorem floorMatch_some {vals : List ℚ} (t : ℚ) (h : vals ≠ []) :
    ∃ v, floorMatch vals t = some v := by
  unfold floorMatch
  cases hf : pyMax (vals.filter (fun v => decide (v ≤ t))) with
  | some m => exact ⟨m, rfl⟩
  | none => simpa using pyMin_some h

theorem floorMatch_mem {vals : List ℚ} {t v : ℚ} (h : floorMatch vals t = some v) :
    v ∈ vals := by
  unfold floorMatch at h
  cases hf : pyMax (vals.filter (fun w => decide (w ≤ t))) with
  | some m =>
    rw [hf] at h
    cases h
    exact (List.mem_filter.mp (pyMax_mem hf)).1
  | none =>
    rw [hf] at h
    exact pyMin_mem h

theorem floorMatch_below {vals : List ℚ} {t v : ℚ} (h : floorMatch vals t = some v)
    (hex : ∃ w ∈ vals, w ≤ t) : v ≤ t ∧ ∀ w ∈ vals, w ≤ t → w ≤ v := by
  obtain ⟨w, hw, hwt⟩ := hex
  have hwf : w ∈ vals.filter (fun u => decide (u ≤ t)) :=
    List.mem_filter.mpr ⟨hw, by simpa using hwt⟩
  have hne : vals.filter (fun u => decide (u ≤ t)) ≠ [] := by
    intro hnil; rw [hnil] at hwf; cases hwf
  obtain ⟨m, hm⟩ := pyMax_some hne
  unfold floorMatch at h
  rw [hm] at h
  cases h
  refine ⟨by simpa using (List.mem_filter.mp (pyMax_mem hm)).2, ?_⟩
  intro u hu hut
  exact pyMax_le hm u (List.mem_filter.mpr ⟨hu, by simpa using hut⟩)

theorem floorMatch_fallback {vals : List ℚ} {t v : ℚ} (h : floorMatch vals t = some v)
    (hno : ∀ w ∈ vals, ¬ w ≤ t) : ∀ w ∈ vals, v ≤ w := by
  have hnil : vals.filter (fun u => decide (u ≤ t)) = [] := by
    rw [List.filter_eq_nil_iff]
    intro a ha
    simpa using hno a ha
  unfold floorMatch at h
  rw [hnil] at h
  simp only [pyMax] at h
  exact pyMin_le h

theorem ceilMatch_some {vals : List ℚ} (t : ℚ) (h : vals ≠ []) :
    ∃ v, ceilMatch vals t = some v := by
  unfold ceilMatch
  cases hf : pyMin (vals.filter (fun v => decide (t ≤ v))) with
  | some m => exact ⟨m, rfl⟩
  | none => simpa using pyMax_some h

theorem ceilMatch_mem {vals : List ℚ} {t v : ℚ} (h : ceilMatch vals t = some v) :
    v ∈ vals := by
  unfold ceilMatch at h
  cases hf : pyMin (vals.filter (fun w => decide (t ≤ w))) with
  | some m =>
    rw [hf] at h
    cases h
    exact (List.mem_filter.mp (pyMin_mem hf)).1
  | none =>
    rw [hf] at h
    exact pyMax_mem h

theorem ceilMatch_above {vals : List ℚ} {t v : ℚ} (h : ceilMatch vals t = some v)
    (hex : ∃ w ∈ vals, t ≤ w) : t ≤ v ∧ ∀ w ∈ vals, t ≤ w → v ≤ w := by
  obtain ⟨w, hw, hwt⟩ := hex
  have hwf : w ∈ vals.filter (fun u => decide (t ≤ u)) :=
    List.mem_filter.mpr ⟨hw, by simpa using hwt⟩
  have hne : vals.filter (fun u => decide (t ≤ u)) ≠ [] := by
    intro hnil; rw [hnil] at hwf; cases hwf
  obtain ⟨m, hm⟩ := pyMin_some hne
  unfold ceilMatch at h
  rw [hm] at h
  cases h
  refine ⟨by simpa using (List.mem_filter.mp (pyMin_mem hm)).2, ?_⟩
  intro u hu hut
  exact pyMin_le hm u (List.mem_filter.mpr ⟨hu, by simpa using hut⟩)

theorem ceilMatch_fallback {vals : List ℚ} {t v : ℚ} (h : ceilMatch vals t = some v)
    (hno : ∀ w ∈ vals, ¬ t ≤ w) : ∀ w ∈ vals, w ≤ v := by
  have hnil : vals.filter (fun u => decide (t ≤ u)) = [] := by
    rw [List.filter_eq_nil_iff]
    intro a ha
    simpa using hno a ha
  unfold ceilMatch at h
  rw [hnil] at h
  simp only [pyMin] at h
  exact pyMax_le h

theorem nearestMatch_some {vals : List ℚ} (t : ℚ) (h : vals ≠ []) :
    ∃ v, nearestMatch vals t = some v := by
  cases vals with
  | nil => exact absurd rfl h
  | cons x xs => exact ⟨_, rfl⟩

theorem nearestMatch_spec {vals : List ℚ} {t v : ℚ} (h : nearestMatch vals t = some v) :
    v ∈ vals ∧ ∀ w ∈ vals, |v - t| ≤ |w - t| := by
  cases vals with
  | nil => simp [nearestMatch] at h
  | cons x xs =>
    simp only [nearestMatch, Option.some.injEq] at h
    have := argminFold_spec (fun u => |u - t|) xs x
    exact h ▸ this

/-! ## Helper lemmas: sorted `iloc` lookups -/

theorem mem_of_head? {α : Type} {l : List α} {a : α} (h : l.head? = some a) : a ∈ l := by
  cases l with
  | nil => cases h
  | cons x xs =>
    injection h with h
    exact h ▸ List.mem_cons_self _ _

theorem head?_some_of_ne_nil {α : Type} {l : List α} (h : l ≠ []) :
    ∃ a, l.head? = some a := by
  cases l with
  | nil => exact absurd rfl h
  | cons x xs => exact ⟨x, rfl⟩

theorem mem_of_getLast? {α : Type} {l : List α} {m : α} (h : l.getLast? = some m) :
    m ∈ l := by
  obtain ⟨hne, hx⟩ := List.mem_getLast?_eq_getLast (Option.mem_def.mpr h)
  exact hx ▸ List.getLast_mem hne

theorem getLast?_some_of_ne_nil {α : Type} {l : List α} (h : l ≠ []) :
    ∃ m, l.getLast? = some m :=
  ⟨l.getLast h, List.getLast?_eq_getLast l h⟩

theorem sortedByKey {α : Type} (key : α → ℚ) (l : List α) :
    List.Sorted (fun a b => key a ≤ key b)
      (List.insertionSort (fun a b => key a ≤ key b) l) := by
  haveI : IsTotal α (fun a b => key a ≤ key b) := ⟨fun a b => le_total _ _⟩
  haveI : IsTrans α (fun a b => key a ≤ key b) := ⟨fun _ _ _ h1 h2 => le_trans h1 h2⟩
  exact List.sorted_insertionSort _ l

theorem insertionSortByKey_ne_nil {α : Type} (key : α → ℚ) {l : List α} (h : l ≠ []) :
    List.insertionSort (fun a b => key a ≤ key b) l ≠ [] := by
  intro hnil
  have hp := List.perm_insertionSort (fun a b => key a ≤ key b) l
  rw [hnil] at hp
  exact h hp.symm.eq_nil

theorem sorted_head_key_le {α : Type} (key : α → ℚ) {l : List α}
    (hs : List.Sorted (fun a b => key a ≤ key b) l) {a : α} (ha : l.head? = some a) :
    ∀ y ∈ l, key a ≤ key y := by
  intro y hy
  cases l with
  | nil => cases ha
  | cons x xs =>
    injection ha with ha
    subst ha
    rcases List.mem_cons.mp hy with rfl | hy
    · exact le_refl _
    · exact List.rel_of_sorted_cons hs y hy

theorem sorted_key_le_getLast {α : Type} (key : α → ℚ) :
    ∀ (l : List α), List.Sorted (fun a b => key a ≤ key b) l →
      ∀ m, l.getLast? = some m → ∀ y ∈ l, key y ≤ key m := by
  intro l
  induction l with
  | nil => intro _ m hm; cases hm
  | cons x xs ih =>
    intro hs m hm y hy
    cases xs with
    | nil =>
      have hm' : m = x := by simpa using hm.symm
      have hy' : y = x := by simpa using hy
      rw [hm', hy']
    | cons z zs =>
      rw [List.getLast?_cons_cons] at hm
      rcases List.mem_cons.mp hy with rfl | hy
      · have h1 : key y ≤ key z := List.rel_of_sorted_cons hs z (List.mem_cons_self _ _)
        have h2 : key z ≤ key m := ih hs.of_cons m hm z (List.mem_cons_self _ _)
        exact le_trans h1 h2
      · exact ih hs.of_cons m hm y hy

theorem sortFloorLookup_spec {α : Type} (key : α → ℚ) (l : List α) (t : ℚ) (h : l ≠ []) :
    ∃ r, sortFloorLookup key l t = some r ∧ r ∈ l ∧
      ((∃ s ∈ l, key s ≤ t) → key r ≤ t ∧ ∀ s ∈ l, key s ≤ t → key s ≤ key r) ∧
      ((∀ s ∈ l, ¬ key s ≤ t) → ∀ s ∈ l, key r ≤ key s) := by
  have hsne := insertionSortByKey_ne_nil key h
  by_cases hv : (List.insertionSort (fun a b => key a ≤ key b) l).filter
      (fun r => decide (key r ≤ t)) = []
  · obtain ⟨a, ha⟩ := head?_some_of_ne_nil hsne
    have hmem : a ∈ l :=
      (List.mem_insertionSort (fun a b => key a ≤ key b)).mp (mem_of_head? ha)
    have hnone : ∀ s ∈ l, ¬ key s ≤ t := by
      intro s hsl hst
      have hmem' : s ∈ (List.insertionSort (fun a b => key a ≤ key b) l).filter
          (fun r => decide (key r ≤ t)) :=
        List.mem_filter.mpr
          ⟨(List.mem_insertionSort (fun a b => key a ≤ key b)).mpr hsl, by simpa using hst⟩
      rw [hv] at hmem'
      cases hmem'
    refine ⟨a, ?_, hmem, ?_, ?_⟩
    · unfold sortFloorLookup
      rw [if_pos (by simpa [List.isEmpty_iff] using hv)]
      exact ha
    · intro hex
      obtain ⟨s, hsl, hst⟩ := hex
      exact absurd hst (hnone s hsl)
    · intro _ s hsl
      exact sorted_head_key_le key (sortedByKey key l) ha s
        ((List.mem_insertionSort (fun a b => key a ≤ key b)).mpr hsl)
  · obtain ⟨m, hm⟩ := getLast?_some_of_ne_nil hv
    have hmf := List.mem_filter.mp (mem_of_getLast? hm)
    have hmem : m ∈ l :=
      (List.mem_insertionSort (fun a b => key a ≤ key b)).mp hmf.1
    have hmt : key m ≤ t := by simpa using hmf.2
    refine ⟨m, ?_, hmem, fun _ => ⟨hmt, ?_⟩, fun hno => absurd hmt (hno m hmem)⟩
    · unfold sortFloorLookup
      rw [if_neg (by simpa [List.isEmpty_iff] using hv)]
      exact hm
    · intro s hsl hst
      exact sorted_key_le_getLast key _ ((sortedByKey key l).filter _) m hm s
        (List.mem_filter.mpr
          ⟨(List.mem_insertionSort (fun a b => key a ≤ key b)).mpr hsl, by simpa using hst⟩)

theorem sortCeilLookup_spec {α : Type} (key : α → ℚ) (l : List α) (t : ℚ) (h : l ≠ []) :
    ∃ r, sortCeilLookup key l t = some r ∧ r ∈ l ∧
      ((∃ s ∈ l, t ≤ key s) → t ≤ key r ∧ ∀ s ∈ l, t ≤ key s → key r ≤ key s) ∧
      ((∀ s ∈ l, ¬ t ≤ key s) → ∀ s ∈ l, key s ≤ key r) := by
  have hsne := insertionSortByKey_ne_nil key h
  by_cases hv : (List.insertionSort (fun a b => key a ≤ key b) l).filter
      (fun r => decide (t ≤ key r)) = []
  · obtain ⟨a, ha⟩ := getLast?_some_of_ne_nil hsne
    have hmem : a ∈ l :=
      (List.mem_insertionSort (fun a b => key a ≤ key b)).mp (mem_of_getLast? ha)
    have hnone : ∀ s ∈ l, ¬ t ≤ key s := by
      intro s hsl hst
      have hmem' : s ∈ (List.insertionSort (fun a b => key a ≤ key b) l).filter
          (fun r => decide (t ≤ key r)) :=
        List.mem_filter.mpr
          ⟨(List.mem_insertionSort (fun a b => key a ≤ key b)).mpr hsl, by simpa using hst⟩
      rw [hv] at hmem'
      cases hmem'
    refine ⟨a, ?_, hmem, ?_, ?_⟩
    · unfold sortCeilLookup
      rw [if_pos (by simpa [List.isEmpty_iff] using hv)]
      exact ha
    · intro hex
      obtain ⟨s, hsl, hst⟩ := hex
      exact absurd hst (hnone s hsl)
    · intro _ s hsl
      exact sorted_key_le_getLast key _ (sortedByKey key l) a ha s
        ((List.mem_insertionSort (fun a b => key a ≤ key b)).mpr hsl)
  · obtain ⟨m, hm⟩ := head?_some_of_ne_nil hv
    have hmf := List.mem_filter.mp (mem_of_head? hm)
    have hmem : m ∈ l :=
      (List.mem_insertionSort (fun a b => key a ≤ key b)).mp hmf.1
    have hmt : t ≤ key m := by simpa using hmf.2
    refine ⟨m, ?_, hmem, fun _ => ⟨hmt, ?_⟩, fun hno => absurd hmt (hno m hmem)⟩
    · unfold sortCeilLookup
      rw [if_neg (by simpa [List.isEmpty_iff] using hv)]
      exact hm
    · intro s hsl hst
      exact sorted_head_key_le key ((sortedByKey key l).filter _) hm s
        (List.mem_filter.mpr
          ⟨(List.mem_insertionSort (fun a b => key a ≤ key b)).mpr hsl, by simpa using hst⟩)

/-! ## Claims -/

/-- C1: for every non-empty list of distinct tabulated values and every
numeric target, directional lookup selects: under `floor` the largest value
`≤` target (global minimum when none is `≤`); under `ceil` the smallest
value `≥` target (global maximum when none is `≥`); under `nearest` a value
minimizing the absolute distance.  In particular, over the table
`[0, 1/4, 1/2, 3/4, 1] → [1, 2, 3, 4, 5]`, floor-resolving `3/5` yields
coefficient `3`, `-5` yields `1` (fallback to the minimum) and `5` yields
`5`. -/
theorem c1_directional_lookup_selects (vals : List ℚ) (t : ℚ) (h : vals ≠ []) :
    (∃ v, floorMatch vals t = some v ∧ v ∈ vals ∧
      ((∃ w ∈ vals, w ≤ t) → v ≤ t ∧ ∀ w ∈ vals, w ≤ t → w ≤ v) ∧
      ((∀ w ∈ vals, ¬ w ≤ t) → ∀ w ∈ vals, v ≤ w)) ∧
    (∃ v, ceilMatch vals t = some v ∧ v ∈ vals ∧
      ((∃ w ∈ vals, t ≤ w) → t ≤ v ∧ ∀ w ∈ vals, t ≤ w → v ≤ w) ∧
      ((∀ w ∈ vals, ¬ t ≤ w) → ∀ w ∈ vals, w ≤ v)) ∧
    (∃ v, nearestMatch vals t = some v ∧ v ∈ vals ∧ ∀ w ∈ vals, |v - t| ≤ |w - t|) ∧
    resolveDir [(0, 1), (1/4, 2), (1/2, 3), (3/4, 4), (1, 5)] (3/5) .floor = some 3 ∧
    resolveDir [(0, 1), (1/4, 2), (1/2, 3), (3/4, 4), (1, 5)] (-5) .floor = some 1 ∧
    resolveDir [(0, 1), (1/4, 2), (1/2, 3), (3/4, 4), (1, 5)] 5 .floor = some 5 := by
  refine ⟨?_, ?_, ?_, ?_, ?_, ?_⟩
  · obtain ⟨v, hv⟩ := floorMatch_some t h
    exact ⟨v, hv, floorMatch_mem hv, floorMatch_below hv, floorMatch_fallback hv⟩
  · obtain ⟨v, hv⟩ := ceilMatch_some t h
    exact ⟨v, hv, ceilMatch_mem hv, ceilMatch_above hv, ceilMatch_fallback hv⟩
  · obtain ⟨v, hv⟩ := nearestMatch_some t h
    exact ⟨v, hv, (nearestMatch_spec hv).1, (nearestMatch_spec hv).2⟩
  all_goals
    norm_num [resolveDir, policyMatch, floorMatch, uniqueVals, uniqueAux, pyMax, pyMin,
      List.filter, List.foldl]

/-- Witness for C1 at the spec's example table and target `3/5`. -/
theorem c1_directional_lookup_selects_witness :
    ([(0 : ℚ), 1/4, 1/2, 3/4, 1] ≠ []) ∧
    (∃ v, floorMatch [(0 : ℚ), 1/4, 1/2, 3/4, 1] (3/5) = some v ∧
      v ∈ [(0 : ℚ), 1/4, 1/2, 3/4, 1] ∧
      ((∃ w ∈ [(0 : ℚ), 1/4, 1/2, 3/4, 1], w ≤ 3/5) →
        v ≤ 3/5 ∧ ∀ w ∈ [(0 : ℚ), 1/4, 1/2, 3/4, 1], w ≤ 3/5 → w ≤ v) ∧
      ((∀ w ∈ [(0 : ℚ), 1/4, 1/2, 3/4, 1], ¬ w ≤ 3/5) →
        ∀ w ∈ [(0 : ℚ), 1/4, 1/2, 3/4, 1], v ≤ w)) :=
  ⟨by simp, (c1_directional_lookup_selects [0, 1/4, 1/2, 3/4, 1] (3/5) (by simp)).1⟩

/-- C2 counterexample: the claim "every fitting pipeline's directional lookup
recovers an empty match by falling back to the extreme and never raises"
fails on `A7A_outputs.py`.  With tabulated angles `30, 45, 60` and target
angle `90` the angle lookup of `A7A` matches no row and produces no value
(the source's `.iloc[0]` raises `IndexError`), although the
fallback-to-extreme policy would have selected `60`; likewise the `R/D`
lookup with tabulated values `1/2, 3/4` and target `1/4`. -/
theorem c2_counterexample_a7a_raises :
    A7A_angleLookup [(30, 1), (45, 2), (60, 3)] 90 = none ∧
    ceilMatch [30, 45, 60] 90 = some 60 ∧
    A7A_rdLookup [(1/2, 1), (3/4, 2)] (1/4) = none ∧
    floorMatch [1/2, 3/4] (1/4) = some (1/2) := by
  refine ⟨?_, ?_, ?_, ?_⟩ <;>
    norm_num [A7A_angleLookup, A7A_rdLookup, ceilMatch, floorMatch, pyMax, pyMin,
      List.insertionSort, List.orderedInsert, List.filter, List.foldl]

/-- C2 (amended): the directional lookups that implement a fallback — the
sorted `iloc` patterns of `A9B2`/`A10B` (`sortFloorLookup`,
`sortCeilLookup`) — always produce a row on a non-empty table, falling back
to the field's global minimum (floor) or maximum (ceil) when no tabulated
value lies in the required direction; but the lookups of `A7A`
(`A7A_angleLookup`, `A7A_rdLookup`) have no fallback and produce no row
(raise `IndexError`) exactly in that empty-match situation. -/
theorem c2_empty_match_recovery {α : Type} (key : α → ℚ) (l : List α) (t : ℚ)
    (h : l ≠ []) :
    (∃ r, sortFloorLookup key l t = some r ∧ r ∈ l ∧
      ((∀ s ∈ l, ¬ key s ≤ t) → ∀ s ∈ l, key r ≤ key s)) ∧
    (∃ r, sortCeilLookup key l t = some r ∧ r ∈ l ∧
      ((∀ s ∈ l, ¬ t ≤ key s) → ∀ s ∈ l, key s ≤ key r)) ∧
    (∀ dfAngle : List (ℚ × ℚ), (∀ s ∈ dfAngle, ¬ t ≤ s.1) →
      A7A_angleLookup dfAngle t = none) ∧
    (∀ dfRd : List (ℚ × ℚ), (∀ s ∈ dfRd, ¬ s.1 ≤ t) →
      A7A_rdLookup dfRd t = none) := by
  refine ⟨?_, ?_, ?_, ?_⟩
  · obtain ⟨r, h1, h2, _, h4⟩ := sortFloorLookup_spec key l t h
    exact ⟨r, h1, h2, h4⟩
  · obtain ⟨r, h1, h2, _, h4⟩ := sortCeilLookup_spec key l t h
    exact ⟨r, h1, h2, h4⟩
  · intro dfAngle hno
    unfold A7A_angleLookup
    have : (List.insertionSort (fun a b : ℚ × ℚ => a.1 ≤ b.1) dfAngle).filter
        (fun r => decide (t ≤ r.1)) = [] := by
      rw [List.filter_eq_nil_iff]
      intro a ha
      simpa using hno a ((List.mem_insertionSort (fun a b : ℚ × ℚ => a.1 ≤ b.1)).mp ha)
    rw [this]
    rfl
  · intro dfRd hno
    unfold A7A_rdLookup
    have : (List.insertionSort (fun a b : ℚ × ℚ => a.1 ≤ b.1) dfRd).filter
        (fun r => decide (r.1 ≤ t)) = [] := by
      rw [List.filter_eq_nil_iff]
      intro a ha
      simpa using hno a ((List.mem_insertionSort (fun a b : ℚ × ℚ => a.1 ≤ b.1)).mp ha)
    rw [this]
    rfl

/-- Witness for the amended C2 on the one-field table `[(30, 1)]` viewed
through its key, at target `90`. -/
theorem c2_empty_match_recovery_witness :
    ([((30 : ℚ), (1 : ℚ))] ≠ []) ∧
    (∃ r, sortFloorLookup (fun p : ℚ × ℚ => p.1) [(30, 1)] 90 = some r ∧
      r ∈ [((30 : ℚ), (1 : ℚ))] ∧
      ((∀ s ∈ [((30 : ℚ), (1 : ℚ))], ¬ s.1 ≤ 90) →
        ∀ s ∈ [((30 : ℚ), (1 : ℚ))], r.1 ≤ s.1)) :=
  ⟨by simp, (c2_empty_match_recovery (fun p : ℚ × ℚ => p.1) [(30, 1)] 90 (by simp)).1⟩

/-- C3: for the cited pipelines (`A13C`, `A10F`), when a declared required
raw input is absent the pipeline returns its fixed missing-input result —
every numeric output absent, no per-field diagnostics (`A13C` returns the
four-`None` dictionary with no `"Error"` entry, `A10F` a single generic
`"Error"` message with no numeric entries) — and the result is the same for
**every** table, i.e. the table model is never queried. -/
theorem c3_missing_input_short_circuit
    (H Hs W angle Q : Option ℚ) (obstruction : Option String) (n : Option ℚ)
    (e1 e2 e3 e4 : Option ℚ)
    (h13 : H = none ∨ Hs = none ∨ W = none ∨ angle = none ∨ Q = none)
    (h10 : e1 = none ∨ e2 = none ∨ e3 = none ∨ e4 = none) :
    (∀ (df : List A13CRow) (dfScreen : List NCRow),
      A13C_outputs H Hs W angle Q obstruction n df dfScreen = stdAllNone) ∧
    (∀ (dfB : List A10FRow) (dfM : List A10MRow),
      A10F_outputs e1 e2 e3 e4 dfB dfM = A10F_missing) := by
  constructor
  · intro df dfScreen
    cases H <;> cases Hs <;> cases W <;> cases angle <;> cases Q <;>
      first
        | rfl
        | simp_all
  · intro dfB dfM
    cases e1 <;> cases e2 <;> cases e3 <;> cases e4 <;>
      first
        | rfl
        | simp_all

/-- Witness for C3: height absent in `A13C`, first entry absent in `A10F`,
all other inputs present, with concrete one-row tables. -/
theorem c3_missing_input_short_circuit_witness :
    ((none : Option ℚ) = none ∨ (some (2 : ℚ)) = none ∨ (some (3 : ℚ)) = none ∨
      (some (10 : ℚ)) = none ∨ (some (100 : ℚ)) = none) ∧
    A13C_outputs none (some 2) (some 3) (some 10) (some 100) (some "none") none
      [⟨10, 1, 2⟩] [⟨1, 1⟩] = stdAllNone ∧
    A10F_outputs none (some 2) (some 300) (some 200)
      [⟨"branch", 1, 1, 2⟩] [⟨"main", 1, 1, 1, 3⟩] = A10F_missing := by
  refine ⟨Or.inl rfl, ?_, ?_⟩
  · exact (c3_missing_input_short_circuit none (some 2) (some 3) (some 10) (some 100)
      (some "none") none none (some 2) (some 300) (some 200)
      (Or.inl rfl) (Or.inl rfl)).1 [⟨10, 1, 2⟩] [⟨1, 1⟩]
  · exact (c3_missing_input_short_circuit none (some 2) (some 3) (some 10) (some 100)
      (some "none") none none (some 2) (some 300) (some 200)
      (Or.inl rfl) (Or.inl rfl)).2 [⟨"branch", 1, 1, 2⟩] [⟨"main", 1, 1, 1, 3⟩]

/-- C9: in `A9B2` and `A10F` input presence is tested by Python truthiness
(`not all([...])`), so an input that is present but equal to `0` takes the
missing-input path: the pipeline returns exactly the result it returns when
the input is entirely absent, for every table (no table is loaded or
queried). -/
theorem c9_zero_input_takes_missing_path
    (e1 e2 e3 e4 e5 e6 e7 f1 f2 f3 f4 : Option ℚ)
    (h9 : e1 = some 0 ∨ e2 = some 0 ∨ e3 = some 0 ∨ e4 = some 0 ∨
      e5 = some 0 ∨ e6 = some 0 ∨ e7 = some 0)
    (h10 : f1 = some 0 ∨ f2 = some 0 ∨ f3 = some 0 ∨ f4 = some 0) :
    (∀ (ldData : List A9B2Row) (aa1Data : List AA1Row),
      A9B2_outputs e1 e2 e3 e4 e5 e6 e7 ldData aa1Data = A9B2_missing ∧
      A9B2_outputs e1 e2 e3 e4 e5 e6 e7 ldData aa1Data =
        A9B2_outputs none none none none none none none ldData aa1Data) ∧
    (∀ (dfB : List A10FRow) (dfM : List A10MRow),
      A10F_outputs f1 f2 f3 f4 dfB dfM = A10F_missing ∧
      A10F_outputs f1 f2 f3 f4 dfB dfM = A10F_outputs none none none none dfB dfM) := by
  constructor
  · intro ldData aa1Data
    have hmiss : A9B2_outputs e1 e2 e3 e4 e5 e6 e7 ldData aa1Data = A9B2_missing := by
      cases e1 <;> cases e2 <;> cases e3 <;> cases e4 <;> cases e5 <;>
        cases e6 <;> cases e7 <;>
        first
          | rfl
          | simp_all [A9B2_outputs]
    exact ⟨hmiss, hmiss.trans rfl⟩
  · intro dfB dfM
    have hmiss : A10F_outputs f1 f2 f3 f4 dfB dfM = A10F_missing := by
      cases f1 <;> cases f2 <;> cases f3 <;> cases f4 <;>
        first
          | rfl
          | simp_all [A10F_outputs]
    exact ⟨hmiss, hmiss.trans rfl⟩

/-- Witness for C9: flow rate `0` in both pipelines, other inputs present,
with concrete one-row tables. -/
theorem c9_zero_input_takes_missing_path_witness :
    ((some (0 : ℚ)) = some 0 ∨ (some (2 : ℚ)) = some 0 ∨ (some (3 : ℚ)) = some 0 ∨
      (some (4 : ℚ)) = some 0 ∨ (some (5 : ℚ)) = some 0 ∨ (some (30 : ℚ)) = some 0 ∨
      (some (100 : ℚ)) = some 0) ∧
    A9B2_outputs (some 0) (some 2) (some 3) (some 4) (some 5) (some 30) (some 100)
      [⟨1, 30, 2⟩] [⟨1, 1⟩] = A9B2_missing := by
  refine ⟨Or.inl rfl, ?_⟩
  exact ((c9_zero_input_takes_missing_path (some 0) (some 2) (some 3) (some 4) (some 5)
    (some 30) (some 100) (some 0) (some 2) (some 3) (some 4)
    (Or.inl rfl) (Or.inl rfl)).1 [⟨1, 30, 2⟩] [⟨1, 1⟩]).1

/-- C6: under the threshold-switch composition of `A12A1` (with an
obstruction present), the total loss coefficient is `1 + C1` — the base term
is replaced — when the geometry ratio `t/D` is `≤ 0.05`, and `C + C1`
otherwise; this is proved through the full pipeline for any table resolving
a base coefficient and any screen correction, and at the spec's concrete
numbers: base `3`, aux `0.8`, ratio `0.04` gives total `1.8`, ratio `0.1`
gives total `3.8`. -/
theorem c6_threshold_switch_composition
    (tv Lv Dv Qv : ℚ) (n pt hd : Option ℚ)
    (df : List A12A1Row) (dfScreen : List NCRow) (dfPlate : List PlateRow)
    (row : A12A1Row) (C1 tm lm : ℚ)
    (hD : Dv ≠ 0)
    (hm : floorMatch (uniqueVals (df.map (·.tD))) (tv / Dv) = some tm)
    (hl : ceilMatch (uniqueVals (df.map (·.lD))) (Lv / Dv) = some lm)
    (hr : (df.filter (fun r => decide (r.tD = tm) && decide (r.lD = lm))).head?
      = some row)
    (hc : A12A1_C1 (some "screen") n pt hd dfScreen dfPlate = .ok C1) :
    ((A12A1_outputs (some tv) (some Lv) (some Dv) (some Qv) (some "screen") n pt hd
        df dfScreen dfPlate).lossCoefficient
      = some (if tv / Dv ≤ 1/20 then 1 + C1 else row.c + C1)) ∧
    (tv / Dv ≤ 1/20 →
      (A12A1_outputs (some tv) (some Lv) (some Dv) (some Qv) (some "screen") n pt hd
        df dfScreen dfPlate).lossCoefficient = some (1 + C1)) ∧
    (¬ tv / Dv ≤ 1/20 →
      (A12A1_outputs (some tv) (some Lv) (some Dv) (some Qv) (some "screen") n pt hd
        df dfScreen dfPlate).lossCoefficient = some (row.c + C1)) ∧
    (A12A1_outputs (some 1) (some 1) (some 25) (some 1000) (some "screen")
      (some (1/2)) none none [⟨0, 100, 3⟩] [⟨1/2, 4/5⟩] []).lossCoefficient
      = some (9/5) ∧
    (A12A1_outputs (some 1) (some 1) (some 10) (some 1000) (some "screen")
      (some (1/2)) none none [⟨0, 100, 3⟩] [⟨1/2, 4/5⟩] []).lossCoefficient
      = some (19/5) := by
  have hmain : (A12A1_outputs (some tv) (some Lv) (some Dv) (some Qv) (some "screen")
      n pt hd df dfScreen dfPlate).lossCoefficient
      = some (if tv / Dv ≤ 1/20 then 1 + C1 else row.c + C1) := by
    show (A12A1_body tv Lv Dv Qv (some "screen") n pt hd df dfScreen dfPlate).lossCoefficient
      = some (if tv / Dv ≤ 1/20 then 1 + C1 else row.c + C1)
    unfold A12A1_body
    rw [if_neg hD]
    simp only [hm, hl, hr, hc, A12A1_total]
    simp
  refine ⟨hmain, fun ht => ?_, fun ht => ?_, ?_, ?_⟩
  · rw [hmain, if_pos ht]
  · rw [hmain, if_neg ht]
  all_goals
    norm_num [A12A1_outputs, A12A1_body, A12A1_C1, A12A1_C1_screenArg, A12A1_C1_screen,
      A12A1_total, floorMatch, ceilMatch, uniqueVals, uniqueAux, pyMax, pyMin,
      List.filter, List.foldl, stdError]

/-- Witness for C6 at the spec's concrete screen example (`t/D = 1/25`,
base `3`, aux `4/5`). -/
theorem c6_threshold_switch_composition_witness :
    (A12A1_outputs (some 1) (some 1) (some 25) (some 1000) (some "screen")
      (some (1/2)) none none [⟨0, 100, 3⟩] [⟨1/2, 4/5⟩] []).lossCoefficient
      = some (if (1 : ℚ) / 25 ≤ 1/20 then 1 + 4/5 else (3 : ℚ) + 4/5) :=
  (c6_threshold_switch_composition 1 1 25 1000 (some (1/2)) none none
    [⟨0, 100, 3⟩] [⟨1/2, 4/5⟩] [] ⟨0, 100, 3⟩ (4/5) 0 100
    (by norm_num)
    (by norm_num [floorMatch, uniqueVals, uniqueAux, pyMax, pyMin, List.filter, List.foldl])
    (by norm_num [ceilMatch, uniqueVals, uniqueAux, pyMax, pyMin, List.filter, List.foldl])
    (by norm_num [List.filter])
    (by norm_num [A12A1_C1, A12A1_C1_screenArg, A12A1_C1_screen, floorMatch,
      uniqueVals, uniqueAux, pyMax, pyMin, List.filter, List.foldl])).1

/-- C7: in the circular-duct pipeline `A10B`, the cross-sectional areas are
`π·(D/2)²/144 ft²` (with `π` the IEEE-754 double `math.pi`), each velocity
is the flow rate divided by its area, each velocity pressure is
`(velocity/4005)²`, and each pressure loss is the resolved loss coefficient
times the corresponding velocity pressure — for every table.  In
particular, for `D = 12` and `Q_source = 1000` the main area is
`π·36/144 = π/4 ≈ 0.7854 ft²` and the source velocity is
`1000/(π/4) ≈ 1273.2 ft/min`. -/
theorem c7_area_velocity_pressure_arithmetic (Dm Db Qs Qb : ℚ) (df : List A10BRow)
    (hb : df.filter (fun r => decide (pyLower r.path = "branch")) ≠ [])
    (hm : df.filter (fun r => decide (pyLower r.path = "main")) ≠ [])
    (hD : Dm ≠ 0) (hDb : Db ≠ 0) (hQ : Qs + Qb ≠ 0) :
    (∃ res cB cM, A10B_outputs (some Dm) (some Db) (some Qs) (some Qb) df = some res ∧
      res.sourceVelocity = some (Qs / (mathPi * (Dm / 2) ^ 2 / 144)) ∧
      res.branchVelocity = some (Qb / (mathPi * (Db / 2) ^ 2 / 144)) ∧
      res.convergedVelocity = some ((Qs + Qb) / (mathPi * (Dm / 2) ^ 2 / 144)) ∧
      res.sourceVelocityPressure
        = some ((Qs / (mathPi * (Dm / 2) ^ 2 / 144) / 4005) ^ 2) ∧
      res.branchVelocityPressure
        = some ((Qb / (mathPi * (Db / 2) ^ 2 / 144) / 4005) ^ 2) ∧
      res.convergedVelocityPressure
        = some (((Qs + Qb) / (mathPi * (Dm / 2) ^ 2 / 144) / 4005) ^ 2) ∧
      res.branchLossCoefficient = some cB ∧
      res.branchPressureLoss
        = some (cB * (Qb / (mathPi * (Db / 2) ^ 2 / 144) / 4005) ^ 2) ∧
      res.mainLossCoefficient = some cM ∧
      res.mainPressureLoss
        = some (cM * (Qs / (mathPi * (Dm / 2) ^ 2 / 144) / 4005) ^ 2)) ∧
    mathPi * ((12 : ℚ) / 2) ^ 2 / 144 = mathPi / 4 ∧
    |mathPi / 4 - 7854 / 10000| < 1 / 10000 ∧
    |(1000 : ℚ) / (mathPi / 4) - 12732 / 10| < 1 / 10 := by
  refine ⟨?_, by norm_num [mathPi],
    by rw [abs_sub_lt_iff]; constructor <;> norm_num [mathPi],
    by rw [abs_sub_lt_iff]; constructor <;> norm_num [mathPi]⟩
  obtain ⟨bq, hbq, -, -, -⟩ := sortCeilLookup_spec (fun r : A10BRow => r.qbqc)
    (df.filter (fun r => decide (pyLower r.path = "branch"))) (Qb / (Qs + Qb)) hb
  obtain ⟨ba, hba, -, -, -⟩ := sortFloorLookup_spec (fun r : A10BRow => r.abac)
    (df.filter (fun r => decide (pyLower r.path = "branch")))
    (mathPi * (Db / 2) ^ 2 / 144 / (mathPi * (Dm / 2) ^ 2 / 144)) hb
  obtain ⟨mq, hmq, -, -, -⟩ := sortCeilLookup_spec (fun r : A10BRow => r.qbqc)
    (df.filter (fun r => decide (pyLower r.path = "main"))) (Qb / (Qs + Qb)) hm
  have hbody : A10B_outputs (some Dm) (some Db) (some Qs) (some Qb) df
      = some ⟨some (Qb / (mathPi * (Db / 2) ^ 2 / 144)),
              some ((Qb / (mathPi * (Db / 2) ^ 2 / 144) / 4005) ^ 2),
              some (bq.c * ba.c),
              some (bq.c * ba.c * (Qb / (mathPi * (Db / 2) ^ 2 / 144) / 4005) ^ 2),
              some (Qs / (mathPi * (Dm / 2) ^ 2 / 144)),
              some ((Qs + Qb) / (mathPi * (Dm / 2) ^ 2 / 144)),
              some ((Qs / (mathPi * (Dm / 2) ^ 2 / 144) / 4005) ^ 2),
              some (((Qs + Qb) / (mathPi * (Dm / 2) ^ 2 / 144) / 4005) ^ 2),
              some mq.c,
              some (mq.c * (Qs / (mathPi * (Dm / 2) ^ 2 / 144) / 4005) ^ 2),
              none⟩ := by
    show A10B_body Dm Db Qs Qb df = _
    unfold A10B_body
    rw [if_neg (by
      rw [not_or]
      constructor <;> simp only [List.isEmpty_iff] <;> assumption)]
    rw [if_neg (by
      rw [not_or, not_or]
      exact ⟨hD, hDb, hQ⟩)]
    simp only [hbq, hba, hmq]
  exact ⟨_, bq.c * ba.c, mq.c, hbody, rfl, rfl, rfl, rfl, rfl, rfl, rfl, rfl, rfl, rfl⟩

/-- Witness for C7 at `D_main = 12`, `D_branch = 6`, `Q_source = 1000`,
`Q_branch = 400`, on a two-row table. -/
theorem c7_area_velocity_pressure_arithmetic_witness :
    ∃ res cB cM,
      A10B_outputs (some 12) (some 6) (some 1000) (some 400)
        [⟨"branch", 1, 1, 2⟩, ⟨"main", 1, 1, 3⟩] = some res ∧
      res.sourceVelocity = some ((1000 : ℚ) / (mathPi * ((12 : ℚ) / 2) ^ 2 / 144)) ∧
      res.branchVelocity = some ((400 : ℚ) / (mathPi * ((6 : ℚ) / 2) ^ 2 / 144)) ∧
      res.convergedVelocity
        = some (((1000 : ℚ) + 400) / (mathPi * ((12 : ℚ) / 2) ^ 2 / 144)) ∧
      res.sourceVelocityPressure
        = some (((1000 : ℚ) / (mathPi * ((12 : ℚ) / 2) ^ 2 / 144) / 4005) ^ 2) ∧
      res.branchVelocityPressure
        = some (((400 : ℚ) / (mathPi * ((6 : ℚ) / 2) ^ 2 / 144) / 4005) ^ 2) ∧
      res.convergedVelocityPressure
        = some ((((1000 : ℚ) + 400) / (mathPi * ((12 : ℚ) / 2) ^ 2 / 144) / 4005) ^ 2) ∧
      res.branchLossCoefficient = some cB ∧
      res.branchPressureLoss
        = some (cB * ((400 : ℚ) / (mathPi * ((6 : ℚ) / 2) ^ 2 / 144) / 4005) ^ 2) ∧
      res.mainLossCoefficient = some cM ∧
      res.mainPressureLoss
        = some (cM * ((1000 : ℚ) / (mathPi * ((12 : ℚ) / 2) ^ 2 / 144) / 4005) ^ 2) :=
  (c7_area_velocity_pressure_arithmetic 12 6 1000 400
    [⟨"branch", 1, 1, 2⟩, ⟨"main", 1, 1, 3⟩]
    (by decide) (by decide)
    (by norm_num) (by norm_num) (by norm_num)).1

/-- C8: sequential (narrowing-mode) resolution narrows: in `A13C` the
candidate ratios are drawn only from the rows surviving the angle match and
the final matched row set is a subset of the angle-match set; in `A9B2` the
angle-stage candidate rows, and the row the angle stage selects, all lie in
the set of rows matching the already-selected `L/D` value. -/
theorem c8_sequential_match_narrowing (df : List A13CRow) (am rm : ℚ)
    (ldData : List A9B2Row) (ldv ang : ℚ) :
    (∀ r ∈ A13C_matched df am rm, r ∈ df.filter (fun r => decide (r.angle = am))) ∧
    (∀ v ∈ A13C_ratioSubset df am, ∃ r ∈ df, r.angle = am ∧ r.ratio = v) ∧
    (∀ r ∈ A9B2_angleData ldData ldv, r ∈ ldData ∧ r.ld = ldv) ∧
    (∀ r, A9B2_angleRow (A9B2_angleData ldData ldv) ang = some r →
      r ∈ ldData ∧ r.ld = ldv) := by
  have h3 : ∀ r ∈ A9B2_angleData ldData ldv, r ∈ ldData ∧ r.ld = ldv := by
    intro r hr
    unfold A9B2_angleData at hr
    have hr2 := (List.mem_insertionSort (fun a b : A9B2Row => a.angle ≤ b.angle)).mp hr
    have hr3 := List.mem_filter.mp hr2
    exact ⟨(List.mem_insertionSort (fun a b : A9B2Row => a.ld ≤ b.ld)).mp hr3.1,
      by simpa using hr3.2⟩
  refine ⟨?_, ?_, h3, ?_⟩
  · intro r hr
    have := List.mem_filter.mp hr
    rcases (Bool.and_eq_true _ _).mp this.2 with ⟨h1, _⟩
    exact List.mem_filter.mpr ⟨this.1, h1⟩
  · intro v hv
    rw [A13C_ratioSubset, mem_uniqueVals] at hv
    obtain ⟨r, hrf, hrv⟩ := List.mem_map.mp hv
    have := List.mem_filter.mp hrf
    exact ⟨r, this.1, by simpa using this.2, hrv⟩
  · intro r h
    refine h3 r ?_
    simp only [A9B2_angleRow] at h
    split at h
    · split at h
      · exact mem_of_head? h
      · exact (List.mem_filter.mp (mem_of_head? h)).1
    · split at h
      · exact mem_of_getLast? h
      · exact (List.mem_filter.mp (mem_of_getLast? h)).1

/-- Witness for C8 on one-row tables: the matched `A13C` row lies in the
angle-match set, and the `A9B2` angle-stage rows match the selected `L/D`. -/
theorem c8_sequential_match_narrowing_witness :
    ((⟨10, 1, 2⟩ : A13CRow) ∈
      List.filter (fun r : A13CRow => decide (r.angle = 10)) [⟨10, 1, 2⟩]) ∧
    ((⟨5, 30, 2⟩ : A9B2Row) ∈ [(⟨5, 30, 2⟩ : A9B2Row)] ∧
      (⟨5, 30, 2⟩ : A9B2Row).ld = 5) := by
  constructor
  · exact (c8_sequential_match_narrowing [⟨10, 1, 2⟩] 10 1 [] 0 0).1 ⟨10, 1, 2⟩ (by decide)
  · exact (c8_sequential_match_narrowing [] 0 0 [⟨5, 30, 2⟩] 5 30).2.2.1 ⟨5, 30, 2⟩ (by decide)

/-! ## Helper lemmas: interpolation -/

theorem map_sum_const {α : Type} (f : α → ℝ) (c : ℝ) :
    ∀ l : List α, (∀ p ∈ l, f p = c) → (l.map f).sum = (l.length : ℝ) * c := by
  intro l
  induction l with
  | nil => simp
  | cons x xs ih =>
    intro h
    rw [List.map_cons, List.sum_cons, ih (fun p hp => h p (List.mem_cons_of_mem _ hp)),
      h x (List.mem_cons_self _ _), List.length_cons]
    push_cast
    ring

theorem sum_map_indicator_mul {α : Type} (p : α → Prop) [DecidablePred p] :
    ∀ l : List (α × ℝ),
      (l.map (fun tp => (if p tp.1 then (1 : ℝ) else 0) * tp.2)).sum
        = ((l.filter (fun tp => decide (p tp.1))).map (·.2)).sum := by
  intro l
  induction l with
  | nil => simp
  | cons a as ih =>
    rw [List.map_cons, List.sum_cons, List.filter_cons]
    by_cases hp : p a.1
    · rw [if_pos hp, one_mul, if_pos (by simpa using hp), List.map_cons, List.sum_cons, ih]
    · rw [if_neg hp, zero_mul, if_neg (by simpa using hp), ih, zero_add]

theorem dist2_eq_zero_iff (a b xq yq : ℝ) :
    Real.sqrt ((a - xq) ^ 2 + (b - yq) ^ 2) = 0 ↔ a = xq ∧ b = yq := by
  constructor
  · intro h
    have hle : (a - xq) ^ 2 + (b - yq) ^ 2 ≤ 0 := Real.sqrt_eq_zero'.mp h
    have h1 : (a - xq) ^ 2 = 0 := by nlinarith [sq_nonneg (a - xq), sq_nonneg (b - yq)]
    have h2 : (b - yq) ^ 2 = 0 := by nlinarith [sq_nonneg (a - xq), sq_nonneg (b - yq)]
    constructor
    · have := sub_eq_zero.mp ((pow_eq_zero_iff (two_ne_zero)).mp h1)
      linarith
    · have := sub_eq_zero.mp ((pow_eq_zero_iff (two_ne_zero)).mp h2)
      linarith
  · rintro ⟨rfl, rfl⟩
    simp

/-- C4: whenever the target is at Euclidean distance exactly zero from some
point's key-vector, `idw_interpolate_nd` returns that (first such) point's
coefficient, independent of `k` and `power`. -/
theorem c4_idw_exact_hit (pts : List (List ℝ × ℝ)) (target : List ℝ)
    (h : ∃ p ∈ pts, distE p.1 target = 0) :
    ∃ p, p ∈ pts ∧ distE p.1 target = 0 ∧
      ∀ (k : ℕ) (power : ℝ), idw_interpolate_nd pts target k power = some p.2 := by
  have hfind : (pts.find? (fun p => decide (distE p.1 target = 0))).isSome := by
    rw [List.find?_isSome]
    obtain ⟨p, hp, hd⟩ := h
    exact ⟨p, hp, by simpa using hd⟩
  obtain ⟨q, hq⟩ := Option.isSome_iff_exists.mp hfind
  have hq0 : distE q.1 target = 0 := by simpa using List.find?_some hq
  refine ⟨q, List.mem_of_find?_eq_some hq, hq0, fun k power => ?_⟩
  unfold idw_interpolate_nd
  rw [hq]

/-- Witness for C4 at the one-point table `([0], 5)` and target `[0]`. -/
theorem c4_idw_exact_hit_witness :
    (∃ p ∈ [([(0 : ℝ)], (5 : ℝ))], distE p.1 [(0 : ℝ)] = 0) ∧
    ∃ p, p ∈ [([(0 : ℝ)], (5 : ℝ))] ∧ distE p.1 [(0 : ℝ)] = 0 ∧
      ∀ (k : ℕ) (power : ℝ),
        idw_interpolate_nd [([(0 : ℝ)], (5 : ℝ))] [0] k power = some p.2 :=
  ⟨⟨([0], 5), by simp, by simp [distE]⟩,
   c4_idw_exact_hit [([0], 5)] [0] ⟨([0], 5), by simp, by simp [distE]⟩⟩

/-- C5 counterexample: with two points both at distance zero from the target
but with different coefficients (`1` and `3`), `idw_interpolate_nd` returns
the **first** point's coefficient `1`, not the arithmetic mean `2`: the
exact-match branch fires first, so the "all distances zero → mean" branch is
unreachable. -/
theorem c5_counterexample_first_not_mean :
    idw_interpolate_nd [([0], (1 : ℝ)), ([0], 3)] [0] 8 2 = some 1 ∧
    ((1 : ℝ) + 3) / 2 = 2 ∧ (1 : ℝ) ≠ 2 := by
  refine ⟨?_, by norm_num, by norm_num⟩
  unfold idw_interpolate_nd
  rw [List.find?_cons_of_pos _ (by simp [distE])]

/-- C5 (amended): when every point of a non-empty table is at Euclidean
distance zero from the target, `idw_interpolate_nd` returns the **first**
point's coefficient (the exact-match branch, `interpolation.py` lines
49-51); this equals the arithmetic mean of the coefficients exactly when
all coefficients agree — in particular for a table reduced to a single
repeated point. -/
theorem c5_all_zero_returns_first (pts : List (List ℝ × ℝ)) (target : List ℝ)
    (k : ℕ) (power : ℝ) (hne : pts ≠ [])
    (hall : ∀ p ∈ pts, distE p.1 target = 0) :
    idw_interpolate_nd pts target k power = (pts.map (·.2)).head? ∧
    ∀ c, (∀ p ∈ pts, p.2 = c) →
      idw_interpolate_nd pts target k power = some ((pts.map (·.2)).sum / pts.length) := by
  cases pts with
  | nil => exact absurd rfl hne
  | cons p0 rest =>
    have h0 : distE p0.1 target = 0 := hall p0 (List.mem_cons_self _ _)
    have hfind : (p0 :: rest).find? (fun p => decide (distE p.1 target = 0)) = some p0 :=
      List.find?_cons_of_pos _ (by simpa using h0)
    constructor
    · unfold idw_interpolate_nd
      rw [hfind]
      rfl
    · intro c hc
      unfold idw_interpolate_nd
      rw [hfind]
      have hsum : ((p0 :: rest).map (·.2)).sum = (((p0 :: rest).length : ℝ)) * c :=
        map_sum_const (·.2) c (p0 :: rest) hc
      have hlen : (((p0 :: rest).length : ℝ)) ≠ 0 := by
        rw [List.length_cons]
        positivity
      show some p0.2
        = some (((p0 :: rest).map (·.2)).sum / (((p0 :: rest).length : ℝ)))
      rw [hsum, hc p0 (List.mem_cons_self _ _), mul_comm, mul_div_assoc,
        div_self hlen, mul_one]

/-- Witness for the amended C5 at the repeated point `([0], 7)`. -/
theorem c5_all_zero_returns_first_witness :
    idw_interpolate_nd [([(0 : ℝ)], (7 : ℝ)), ([0], 7)] [0] 8 2
      = ([([(0 : ℝ)], (7 : ℝ)), ([0], 7)].map (·.2)).head? :=
  (c5_all_zero_returns_first [([0], 7), ([0], 7)] [0] 8 2 (by simp)
    (by
      intro p hp
      rcases List.mem_cons.mp hp with rfl | hp
      · simp [distE]
      · rcases List.mem_cons.mp hp with rfl | hp
        · simp [distE]
        · cases hp)).1

theorem weights_hit_sum {α : Type} (p : α → Prop) [DecidablePred p] :
    ∀ (x : List α) (c : List ℝ),
      (((x.map (fun xi => if p xi then (1 : ℝ) else 0)).zip c).map
        (fun t => t.1 * t.2)).sum
        = (((x.zip c).filter (fun t => decide (p t.1))).map (·.2)).sum := by
  intro x
  induction x with
  | nil => intro c; simp
  | cons a as ih =>
    intro c
    cases c with
    | nil => simp
    | cons b bs =>
      by_cases hp : p a <;> simp [List.filter_cons, hp, ih bs]

/-- C10: on an exact hit, `_idw_weights_1d` / `_idw_weights_2d` assign
weight `1` to **every** coinciding point without renormalizing, so
`Interpolator1D`/`Interpolator2D` return the **sum** of the coefficients of
all coinciding points — the single coefficient when one point coincides,
but a sum that can exceed every tabulated coefficient when several do:
at stored points `x = [0, 0]`, `c = [1, 3]` the query `0` returns `4`. -/
theorem c10_exact_hit_weight_sum
    (x c x2 y2 c2 : List ℝ) (xq power xq2 yq2 power2 : ℝ)
    (hhit : ∃ xi ∈ x, xi = xq)
    (hhit2 : ∃ t ∈ x2.zip y2, t.1 = xq2 ∧ t.2 = yq2) :
    Interpolator1D_call x c power xq
      = (((x.zip c).filter (fun t => decide (t.1 = xq))).map (·.2)).sum ∧
    Interpolator2D_call x2 y2 c2 power2 xq2 yq2
      = ((((x2.zip y2).zip c2).filter
          (fun t => decide (t.1.1 = xq2 ∧ t.1.2 = yq2))).map (·.2)).sum ∧
    Interpolator1D_call [0, 0] [1, 3] 2 0 = 4 := by
  have h1d : ∀ (x c : List ℝ) (power xq : ℝ), (∃ xi ∈ x, xi = xq) →
      Interpolator1D_call x c power xq
        = (((x.zip c).filter (fun t => decide (t.1 = xq))).map (·.2)).sum := by
    intro x c power xq hhit
    have hany : (x.map fun xi => |xi - xq|).any (fun d => decide (d = 0)) = true := by
      rw [List.any_eq_true]
      obtain ⟨xi, hxi, rfl⟩ := hhit
      exact ⟨|xi - xi|, List.mem_map_of_mem _ hxi, by simp⟩
    have hcomp : ((fun d : ℝ => if d = 0 then (1 : ℝ) else 0) ∘ fun xi => |xi - xq|)
        = fun xi : ℝ => if |xi - xq| = 0 then (1 : ℝ) else 0 := by
      funext d
      simp [Function.comp]
    simp only [Interpolator1D_call, idw_weights_1d]
    rw [if_pos hany, List.map_map, hcomp,
      weights_hit_sum (fun xi : ℝ => |xi - xq| = 0) x c]
    refine congrArg _ (congrArg _ (List.filter_congr ?_))
    intro t _
    rw [decide_eq_decide]
    simp [abs_eq_zero, sub_eq_zero]
  refine ⟨h1d x c power xq hhit, ?_, ?_⟩
  · have hany : ((x2.zip y2).map fun t =>
        Real.sqrt ((t.1 - xq2) ^ 2 + (t.2 - yq2) ^ 2)).any
          (fun d => decide (d = 0)) = true := by
      rw [List.any_eq_true]
      obtain ⟨t, ht, h1, h2⟩ := hhit2
      refine ⟨_, List.mem_map_of_mem _ ht, ?_⟩
      simp [h1, h2]
    have hcomp : ((fun d : ℝ => if d = 0 then (1 : ℝ) else 0) ∘
        fun t : ℝ × ℝ => Real.sqrt ((t.1 - xq2) ^ 2 + (t.2 - yq2) ^ 2))
        = fun t : ℝ × ℝ =>
          if Real.sqrt ((t.1 - xq2) ^ 2 + (t.2 - yq2) ^ 2) = 0 then (1 : ℝ) else 0 := by
      funext t
      simp [Function.comp]
    simp only [Interpolator2D_call, idw_weights_2d]
    rw [if_pos hany, List.map_map, hcomp,
      weights_hit_sum
        (fun t : ℝ × ℝ => Real.sqrt ((t.1 - xq2) ^ 2 + (t.2 - yq2) ^ 2) = 0)
        (x2.zip y2) c2]
    refine congrArg _ (congrArg _ (List.filter_congr ?_))
    intro t _
    rw [decide_eq_decide]
    exact dist2_eq_zero_iff t.1.1 t.1.2 xq2 yq2
  · rw [h1d [0, 0] [1, 3] 2 0 ⟨0, by simp, rfl⟩]
    norm_num [List.zip, List.zipWith, List.filter]

/-- Witness for C10 at stored 1D points `[0, 0]` with coefficients `[1, 3]`
and 2D point `(0, 0)` with coefficient `5`. -/
theorem c10_exact_hit_weight_sum_witness :
    Interpolator1D_call [0, 0] [1, 3] 2 0
      = ((([(0 : ℝ), 0].zip [(1 : ℝ), 3]).filter
          (fun t => decide (t.1 = (0 : ℝ)))).map (·.2)).sum :=
  (c10_exact_hit_weight_sum [0, 0] [1, 3] [0] [0] [5] 0 2 0 0 2
    ⟨0, by simp, rfl⟩ ⟨(0, 0), by simp [List.zip], by simp⟩).1
